import Mathlib

/-!
Shallow embedding of the NBA data-fetching/ETL pipeline (`apirequests.py`)
and the model-training pipeline (`model.py`).

Conventions of the embedding:
* A pandas `DataFrame` holding box-score rows is a `List BoxRow` (`DF`);
  `ignore_index=True` renumbering is implicit in list concatenation.
* Python exceptions are modelled with `Except`: a function that can raise
  returns `Except` of an error description; an uncaught exception is an
  `Except.error` value propagating outward.
* `time.sleep(0.1)` is modelled by counting the number of 0.1-second waits.
* Remote endpoints (out of scope per the spec) are abstracted as oracle
  functions supplied by the caller: the per-attempt outcome of the remote
  call inside `fetch_box_score`, and the per-game/per-category fetch
  behaviour inside the orchestrator.
-/

/-- One row of a per-category box-score table (`team_stats` in the source):
the columns relevant to the store logic are `gameId` and the team identity;
further numeric statistic columns do not influence any of the control flow
modelled here. -/
structure BoxRow where
  gameId : Int
  teamId : Int
deriving Repr, DecidableEq

/-- A box-score data frame: a list of team-level rows. -/
abbrev DF := List BoxRow

/-- Kinds of Python exceptions distinguished by the fetch pipeline:
`json.decoder.JSONDecodeError`, `KeyboardInterrupt`, and anything else. -/
inductive ExcKind where
  | decode
  | kb
  | other
deriving Repr, DecidableEq

/-- Outcome of one attempt of the remote box-score endpoint call inside
`fetch_box_score` (the `nba_api` call plus `team_stats.get_data_frame()`):
either it returns a table, or it raises one of the exception kinds. -/
inductive FetchOutcome (α : Type) where
  | success (a : α)
  | decodeError
  | kbInterrupt
  | otherError
deriving Repr, DecidableEq

/-- The retry loop of `NBADataFetcher.fetch_box_score` (src/apirequests.py
lines 105-144): `for attempt in range(max_retries)` with the remote call in a
`try` whose `except JSONDecodeError` branch sleeps `wait_seconds` and retries
when `attempt < max_retries`, and re-raises otherwise.  The first component of
the result is the function outcome (`Except.ok` = normal return, carrying the
returned value: `some` table on success, `none` when the `for` loop is
exhausted and control falls off the end of the Python function);
the second counts invocations of the remote fetch; the third counts
0.1-second sleeps.  `attempt` is the current loop index, the `Nat` argument
is the number of loop iterations left. -/
def fetchAttempts {α : Type} (fetch : Nat → FetchOutcome α) (maxRetries : Nat) :
    Nat → Nat → Except ExcKind (Option α) × Nat × Nat
  | _, 0 => (Except.ok none, 0, 0)
  | attempt, remaining + 1 =>
    match fetch attempt with
    | FetchOutcome.success a => (Except.ok (some a), 1, 0)
    | FetchOutcome.kbInterrupt => (Except.error ExcKind.kb, 1, 0)
    | FetchOutcome.otherError => (Except.error ExcKind.other, 1, 0)
    | FetchOutcome.decodeError =>
      if attempt < maxRetries then
        let r := fetchAttempts fetch maxRetries (attempt + 1) remaining
        (r.1, r.2.1 + 1, r.2.2 + 1)
      else
        (Except.error ExcKind.decode, 1, 0)

/-- `NBADataFetcher.fetch_box_score` with `max_retries = 10`,
`wait_seconds = 0.1`: runs the attempt loop over `range(10)`.  The choice of
endpoint and parameter set by `data_type` is absorbed into the abstract
per-attempt `fetch` oracle (those remote calls are out of scope). -/
def fetch_box_score {α : Type} (fetch : Nat → FetchOutcome α) :
    Except ExcKind (Option α) × Nat × Nat :=
  fetchAttempts fetch 10 0 10

/-- `NBADataFetcher.data_exists` (lines 157-159):
`(not existing_data.empty) and (int(game_id) in existing_data["gameId"].unique())`.
The `int(...)` coercion is implicit (`game_id` is already modelled as `Int`),
and membership in `.unique()` equals membership in the column itself. -/
def data_exists (existing : DF) (game_id : Int) : Bool :=
  !existing.isEmpty && decide (game_id ∈ existing.map (fun r => r.gameId))

/-- The `objs = list(com.not_none(*objs))` step inside `pd.concat`: `None`
entries of the object list are dropped silently before any per-object type
check. -/
def droppedNone (l : List (Option DF)) : List DF :=
  l.filterMap (fun x => x)

/-- `pd.concat(new_data_list, ignore_index=True)`: raises `ValueError` on an
empty object list (the source only calls it on nonempty lists); otherwise
drops `None` entries silently — which `fetch_box_score` can produce, see the
retry analysis — raises `ValueError` when every entry was `None`, and
concatenates the remaining tables in order. -/
def concatOpt (l : List (Option DF)) : Except String DF :=
  if l.isEmpty then Except.error "ValueError: No objects to concatenate"
  else if (droppedNone l).isEmpty then
    Except.error "ValueError: All objects passed were None"
  else Except.ok (droppedNone l).flatten

/-- `NBADataFetcher.concatenate_and_save` (lines 161-171): three-way branch on
whether existing data and new data are present; the combined table is written
in full to `{season}_{data_type}_stats.csv` (overwriting), modelled here by
returning it.  Buffer elements are `Option DF` because the orchestrator
appends whatever `fetch_box_score` returned, which can be `None`. -/
def concatenate_and_save (existing : DF) (new_data_list : List (Option DF)) :
    Except String DF :=
  if !existing.isEmpty && !new_data_list.isEmpty then
    match concatOpt new_data_list with
    | Except.ok n => Except.ok (existing ++ n)
    | Except.error m => Except.error m
  else if new_data_list.isEmpty then
    Except.ok existing
  else
    concatOpt new_data_list

/-- The five statistic categories fetched per game (`data_types` in the
source). -/
inductive StatCat where
  | advanced
  | hustle
  | misc
  | track
  | traditional
deriving Repr, DecidableEq

/-- The fixed category order used by the per-game loop and by every flush
site of `fetch_and_save_all_data` (advanced, hustle, misc, track,
traditional). -/
def catsOrder : List StatCat :=
  [StatCat.advanced, StatCat.hustle, StatCat.misc, StatCat.track,
   StatCat.traditional]

/-- The five in-memory per-category buffers
(`advanced_stats_list`, ..., `traditional_stats_list`), each a Python list
to which the value returned by `fetch_box_score` is appended — an `Option DF`
since that value can be `None`. -/
abbrev Buffers := StatCat → List (Option DF)

/-- `list.append(v)` on one category buffer. -/
def appendBuf (bufs : Buffers) (c : StatCat) (v : Option DF) : Buffers :=
  fun c' => if c' = c then bufs c' ++ [v] else bufs c'

/-- One category step of the per-game body of `fetch_and_save_all_data`
(e.g. lines 189-192 for "advanced"): check `data_exists`; when absent, call
`fetch_box_score` and append its returned value to that category buffer;
an exception raised by the fetch propagates (second component). -/
def processCat (existing : StatCat → DF) (gid : Int)
    (oracle : StatCat → Nat → FetchOutcome DF) (bufs : Buffers) (c : StatCat) :
    Buffers × Option ExcKind :=
  if data_exists (existing c) gid then (bufs, none)
  else
    match fetch_box_score (oracle c) with
    | (Except.ok v, _, _) => (appendBuf bufs c v, none)
    | (Except.error e, _, _) => (bufs, some e)

/-- The per-game body: the five category steps in order inside one `try`
block; the first exception aborts the remaining categories of this game. -/
def processCats (existing : StatCat → DF) (gid : Int)
    (oracle : StatCat → Nat → FetchOutcome DF) :
    Buffers → List StatCat → Buffers × Option ExcKind
  | bufs, [] => (bufs, none)
  | bufs, c :: rest =>
    match processCat existing gid oracle bufs c with
    | (bufs', none) => processCats existing gid oracle bufs' rest
    | (bufs', some e) => (bufs', some e)

/-- Process one game id over all five categories. -/
def processGame (existing : StatCat → DF) (gid : Int)
    (oracle : StatCat → Nat → FetchOutcome DF) (bufs : Buffers) :
    Buffers × Option ExcKind :=
  processCats existing gid oracle bufs catsOrder

/-- The five sequential `concatenate_and_save` calls of a flush site
(lines 217-221, 230-234 or 239-243): categories are written in `catsOrder`;
a raise inside one write aborts the remaining writes.  Returns the
successfully written `(category, table)` pairs and the error, if any. -/
def flushCats (existing : StatCat → DF) (bufs : Buffers) :
    List StatCat → List (StatCat × DF) × Option String
  | [] => ([], none)
  | c :: rest =>
    match concatenate_and_save (existing c) (bufs c) with
    | Except.ok v =>
      let r := flushCats existing bufs rest
      ((c, v) :: r.1, r.2)
    | Except.error m => ([], some m)

/-- Flush all five buffers. -/
def flushAll (existing : StatCat → DF) (bufs : Buffers) :
    List (StatCat × DF) × Option String :=
  flushCats existing bufs catsOrder

/-- Result of one orchestrator run: the per-category tables actually written,
the exception raised during flushing (if any), the buffers at the moment the
terminating flush started, and the exception the run re-raises (`none` for
normal completion). -/
structure OrchOut where
  written : List (StatCat × DF)
  flushErr : Option String
  bufs : Buffers
  outcome : Option ExcKind

/-- Terminate the run: flush all buffers, record the outcome. -/
def finishRun (existing : StatCat → DF) (bufs : Buffers)
    (outc : Option ExcKind) : OrchOut :=
  let f := flushAll existing bufs
  { written := f.1, flushErr := f.2, bufs := bufs, outcome := outc }

/-- The game loop of `NBADataFetcher.fetch_and_save_all_data`
(lines 183-243): per game, the five category steps inside a `try` whose
handlers are `except KeyboardInterrupt` (flush all five buffers, re-raise),
`except JSONDecodeError` (log and skip to the next game) and
`except Exception` (flush all five buffers, re-raise); after the loop, a
final flush of all five buffers.  Each run is driven by the list of
`(game id, per-category fetch oracle)` pairs. -/
def runOrch (existing : StatCat → DF) :
    List (Int × (StatCat → Nat → FetchOutcome DF)) → Buffers → OrchOut
  | [], bufs => finishRun existing bufs none
  | g :: rest, bufs =>
    match processGame existing g.1 g.2 bufs with
    | (bufs', none) => runOrch existing rest bufs'
    | (bufs', some ExcKind.decode) => runOrch existing rest bufs'
    | (bufs', some ExcKind.kb) => finishRun existing bufs' (some ExcKind.kb)
    | (bufs', some ExcKind.other) => finishRun existing bufs' (some ExcKind.other)

/-- `fetch_and_save_all_data` for a season: the buffers start empty; the
game-log fetching, CSV progress dump and the ten-game progress print do not
affect the store logic and are not modelled. -/
def fetch_and_save_all_data (existing : StatCat → DF)
    (games : List (Int × (StatCat → Nat → FetchOutcome DF))) : OrchOut :=
  runOrch existing games (fun _ => [])

/-- One raw row of the league game log returned by the remote API
(columns used by `process_game_logs`): game id, team id, team abbreviation,
game date (already parsed to a day number; the `date(*map(int, x.split("-")))`
parsing is absorbed here), the `MATCHUP` string and the points scored. -/
structure GameLogRow where
  gameId : Nat
  teamId : Nat
  teamAbbreviation : String
  gameDate : Nat
  matchup : String
  pts : Int
deriving Repr, DecidableEq

/-- One merged record of the processed game log (the column selection of
lines 86-93). -/
structure MergedGame where
  gameId : Nat
  gameDate : Nat
  homeTeamAbbreviation : String
  homeTeamPts : Int
  awayTeamAbbreviation : String
  awayTeamPts : Int
deriving Repr, DecidableEq

/-- `game_logs["MATCHUP"].str.contains(" vs. ")`: `str.contains` treats the
pattern as a regular expression, so the `.` matches any character — the test
succeeds iff the string has an occurrence of space, `v`, `s`, any character,
space. -/
def hasVs : List Char → Bool
  | [] => false
  | c :: rest =>
    (match c :: rest with
     | ' ' :: 'v' :: 's' :: _ :: ' ' :: _ => true
     | _ => false) || hasVs rest

/-- `game_logs["MATCHUP"].str.contains(" @ ")`: occurrence of the literal
substring, which has no regex metacharacters. -/
def hasAtSign : List Char → Bool
  | [] => false
  | c :: rest =>
    (match c :: rest with
     | ' ' :: '@' :: ' ' :: _ => true
     | _ => false) || hasAtSign rest

/-- A row belongs to the home half. -/
def isHomeRow (r : GameLogRow) : Bool := hasVs r.matchup.toList

/-- A row belongs to the away half. -/
def isAwayRow (r : GameLogRow) : Bool := hasAtSign r.matchup.toList

/-- `drop_duplicates(subset=["GAME_ID","TEAM_ID"])`: keeps the first
occurrence of each (game id, team id) pair, preserving order; `seen`
accumulates the key pairs already kept. -/
def dropDupGameTeam : List GameLogRow → List (Nat × Nat) → List GameLogRow
  | [], _ => []
  | r :: rest, seen =>
    if (r.gameId, r.teamId) ∈ seen then dropDupGameTeam rest seen
    else r :: dropDupGameTeam rest ((r.gameId, r.teamId) :: seen)

/-- Lines 65-66 of `process_game_logs`: drop rows dated today (possibly
incomplete live games), then deduplicate on (game id, team id). -/
def filteredLogs (today : Nat) (logs : List GameLogRow) : List GameLogRow :=
  dropDupGameTeam (logs.filter (fun r => r.gameDate != today)) []

/-- The home half of the filtered log (line 69). -/
def homeLogs (today : Nat) (logs : List GameLogRow) : List GameLogRow :=
  (filteredLogs today logs).filter (fun r => isHomeRow r)

/-- The away half of the filtered log (line 70). -/
def awayLogs (today : Nat) (logs : List GameLogRow) : List GameLogRow :=
  (filteredLogs today logs).filter (fun r => isAwayRow r)

/-- The away rows joined to a given home row by
`pd.merge(home_logs, away_logs, on=["GAME_ID", "GAME_DATE"])`. -/
def matchesOf (away : List GameLogRow) (h : GameLogRow) : List GameLogRow :=
  away.filter (fun a => a.gameId == h.gameId && a.gameDate == h.gameDate)

/-- The column selection and renaming of the merged frame (lines 73-93):
team/points columns from the home row get the Home prefix, those from the
away row the Away prefix. -/
def mergeRow (h a : GameLogRow) : MergedGame :=
  { gameId := h.gameId
    gameDate := h.gameDate
    homeTeamAbbreviation := h.teamAbbreviation
    homeTeamPts := h.pts
    awayTeamAbbreviation := a.teamAbbreviation
    awayTeamPts := a.pts }

/-- `NBADataFetcher.process_game_logs` (lines 57-95): filter out rows dated
today, deduplicate on (game id, team id), split into home/away halves by the
matchup substrings, inner-join the halves on (game id, game date) — the join
enumerates, in left order, every home row paired with each matching away
row — and select/rename the output columns. -/
def process_game_logs (today : Nat) (logs : List GameLogRow) :
    List MergedGame :=
  (homeLogs today logs).flatMap
    (fun h => (matchesOf (awayLogs today logs) h).map (mergeRow h))

/-- Substring test on character lists (Python `in` on strings / the
`"teamTricode" not in col` test of `generate_diff_features`). -/
def containsChars (pat : List Char) : List Char → Bool
  | [] => pat.isEmpty
  | c :: rest => pat.isPrefixOf (c :: rest) || containsChars pat rest

/-- `pat in s` for strings. -/
def strContains (s pat : String) : Bool := containsChars pat.toList s.toList

/-- A pandas frame indexed by `gameId` (after `set_index("gameId")`):
named columns, and per game id the cell values aligned with `cols`
(`none` = NaN / missing). -/
structure SFrame where
  cols : List String
  rows : List (Int × List (Option Int))
deriving Repr, DecidableEq

/-- Position of a column name. -/
def colIdx (f : SFrame) (c : String) : Option Nat :=
  f.cols.findIdx? (fun c' => c' == c)

/-- The cell of frame `f` at game id `g`, column `c`; `none` when the game id
is absent from the index, the column is absent, or the cell is NaN. -/
def cellVal (f : SFrame) (g : Int) (c : String) : Option Int :=
  match f.rows.find? (fun r => r.1 == g) with
  | none => none
  | some r =>
    match colIdx f c with
    | none => none
    | some i => (r.2.get? i).join

/-- Line 53 of `model.py`:
`[col for col in df_home.columns if "teamTricode" not in col]`. -/
def diffColumns (home : SFrame) : List String :=
  home.cols.filter (fun c => !(strContains c "teamTricode"))

/-- The aligned subtraction
`df_home[diff_columns].sub(df_away[diff_columns], fill_value=0)` at one
(column, game id) cell: a value missing on one side is replaced by 0; a value
missing on both sides stays NaN. -/
def diffValue (home away : SFrame) (c : String) (g : Int) : Option Int :=
  match cellVal home g c, cellVal away g c with
  | none, none => none
  | hv, av => some (hv.getD 0 - av.getD 0)

/-- Line 57 of `model.py` as written:
`["gameId"] + [f"diff_" for col in diff_features if col != "gamId"]`.
After `reset_index()` the frame columns are `"gameId"` followed by the diff
columns; the comprehension iterates over all of them, compares against the
misspelled `"gamId"` (so `"gameId"` passes the filter too) and produces the
literal string `"diff_"` for each — the f-string never interpolates `col`. -/
def diffFeatureNames (home : SFrame) : List String :=
  "gameId" ::
    ((("gameId" :: diffColumns home).filter (fun c => c != "gamId")).map
      (fun _ => "diff_"))

/-- `generate_diff_features` (model.py lines 48-58): set `gameId` as index on
both frames, subtract the non-`teamTricode` columns with `fill_value=0`
(aligning on the union of the game-id indexes, home ids first), reset the
index, then assign the column-name list of line 57.  Assigning a name list
whose length differs from the number of columns raises
`ValueError: Length mismatch` in pandas. -/
def generate_diff_features (home away : SFrame) : Except String SFrame :=
  let dcols := diffColumns home
  let homeIds := home.rows.map (fun r => r.1)
  let ids := homeIds ++
    ((away.rows.map (fun r => r.1)).filter (fun g => !(homeIds.contains g)))
  let resetCols := "gameId" :: dcols
  let resetRows := ids.map
    (fun g => (g, some g :: dcols.map (fun c => diffValue home away c g)))
  let names := diffFeatureNames home
  if names.length == resetCols.length then
    Except.ok { cols := names, rows := resetRows }
  else
    Except.error "ValueError: Length mismatch"

/-- One row of `all_games.csv` as loaded by `load_data` (the columns used by
`split_scale_data`); dates are day numbers as in the fetch model. -/
structure GameRow where
  gameId : Int
  gameDate : Nat
deriving Repr, DecidableEq

/-- Operands of the comparison written on lines 72-73 of `model.py`. -/
inductive PyOperand where
  | strList (l : List String)
  | timestamp (t : Nat)
  | series (vals : List Nat)
deriving Repr, DecidableEq

/-- Python `<` between the operand kinds involved: a date series compares
elementwise against a timestamp; a plain Python list compared against a
Timestamp raises `TypeError`. -/
def pyLt : PyOperand → PyOperand → Except String (List Bool)
  | PyOperand.series vs, PyOperand.timestamp t =>
    Except.ok (vs.map (fun v => decide (v < t)))
  | _, _ => Except.error "TypeError: < not supported between list and Timestamp"

/-- Python `>=` between the same operand kinds. -/
def pyGe : PyOperand → PyOperand → Except String (List Bool)
  | PyOperand.series vs, PyOperand.timestamp t =>
    Except.ok (vs.map (fun v => decide (t ≤ v)))
  | _, _ => Except.error "TypeError: >= not supported between list and Timestamp"

/-- `split_scale_data` (model.py lines 71-83) as written: line 72 evaluates
`df_games[["GAME_DATE"] < pd.to_datetime(cutoff_date)]` — the bracket is
misplaced, so the left operand of `<` is the Python list `["GAME_DATE"]`,
not the date column, and the comparison raises before any partition is
built; line 73 repeats the mistake with `>=`.  Were both masks to evaluate,
lines 79-81 select the nonexistent column `"gameIds"` (the frame column is
`"gameId"`), raising `KeyError`; the function body ends at a `# FILL IN`
comment with no return statement. -/
def split_scale_data (df_games : List GameRow) (cutoff_date : Nat) :
    Except String (List GameRow × List GameRow) :=
  match pyLt (PyOperand.strList ["GAME_DATE"]) (PyOperand.timestamp cutoff_date) with
  | Except.error m => Except.error m
  | Except.ok _trainMask =>
    match pyGe (PyOperand.strList ["GAME_DATE"]) (PyOperand.timestamp cutoff_date) with
    | Except.error m => Except.error m
    | Except.ok _testMask => Except.error "KeyError: gameIds"

/-- The attributes the `pickle` module actually exposes (the ones a correct
persistence call would use). -/
def pickleAttrs : List String :=
  ["dump", "dumps", "load", "loads", "Pickler", "Unpickler", "HIGHEST_PROTOCOL"]

/-- Python attribute lookup on the `pickle` module: `pickle.<nm>` raises
`AttributeError` when the module has no such attribute. -/
def pickleGetattr (nm : String) : Except String String :=
  if pickleAttrs.contains nm then Except.ok nm
  else Except.error ("AttributeError: module pickle has no attribute " ++ nm)

/-- The persistence statement of `train_models` (model.py line 119) as
written: `pickle.diump(xgb_model. open(f"spread_model_{i}.pkl", "wb"))`.
Python resolves the attribute `pickle.diump` before evaluating the argument,
so the misspelling raises `AttributeError` immediately; on success the write
would produce the numbered artifact file. -/
def saveModel (i : Nat) : Except String String :=
  match pickleGetattr "diump" with
  | Except.ok _ => Except.ok ("spread_model_" ++ toString i ++ ".pkl")
  | Except.error m => Except.error m

/-- The training loop body over the remaining model numbers: each iteration
trains a model (the opaque `XGBRegressor.fit`, which always yields a model)
and then executes the persistence statement; an exception aborts the loop.
Returns the outcome and the artifact files written so far. -/
def trainLoop : List Nat → List String → Except String Unit × List String
  | [], files => (Except.ok (), files)
  | i :: rest, files =>
    match saveModel i with
    | Except.ok f => trainLoop rest (files ++ [f])
    | Except.error m => (Except.error m, files)

/-- `train_models(n)` (model.py lines 100-119): `for i in range(1, n+1)`,
train model `i`, persist it.  (The enclosing module cannot even be imported —
line 9 imports the misspelled `sklearn.preprocessing.StandardScalar` — but
the claim is settled against the function body itself.) -/
def train_models (n : Nat) : Except String Unit × List String :=
  trainLoop ((List.range n).map (fun i => i + 1)) []

theorem fetchAttempts_all_decode {α : Type} (fetch : Nat → FetchOutcome α)
    (attempt remaining : Nat) (hle : attempt + remaining ≤ 10)
    (hdec : ∀ i, i < 10 → fetch i = FetchOutcome.decodeError) :
    fetchAttempts fetch 10 attempt remaining =
      (Except.ok none, remaining, remaining) := by
  induction remaining generalizing attempt with
  | zero => rfl
  | succ n ih =>
    have hlt : attempt < 10 := by omega
    have hf := hdec attempt hlt
    simp [fetchAttempts, hf, hlt, ih (attempt + 1) (by omega)]

/-- A per-attempt oracle on which every remote call raises
`JSONDecodeError`. -/
def c1FailFetch : Nat → FetchOutcome DF := fun _ => FetchOutcome.decodeError

/-- A per-attempt oracle that raises `JSONDecodeError` on attempts 0, 1, 2
and succeeds on attempt 3. -/
def c1MixFetch : Nat → FetchOutcome DF := fun i =>
  if i < 3 then FetchOutcome.decodeError
  else FetchOutcome.success [⟨9, 1⟩]

/-- C1: evaluated on a fetch that raises a decode failure on every one of
its 10 attempts, `fetch_box_score` returns normally with value `None` after
10 invocations (and 10 waits) — it does not propagate a terminal failure,
because the guard `attempt < max_retries` inside `range(max_retries)` is
always true, making the re-raise branch unreachable.  On a fetch that fails
k = 3 times and succeeds on attempt k+1, the call does return the success
value after exactly k+1 = 4 invocations with k waits, as the claim states
for the non-exhausted case. -/
theorem c1_retry_exhaustion_returns_none :
    fetch_box_score c1FailFetch = (Except.ok none, 10, 10) ∧
    fetch_box_score c1MixFetch = (Except.ok (some [⟨9, 1⟩]), 4, 3) :=
  ⟨rfl, rfl⟩

/-- C10: when every one of the 10 attempts raises a decode error, the guard
`attempt < max_retries` is always satisfied, so `fetch_box_score` never
re-raises: it falls off the end of the loop and returns `None`; the
orchestrator's category step then appends that `None` to the in-memory
category buffer and raises nothing. -/
theorem c10_retry_none_buffered (existing : StatCat → DF) (gid : Int)
    (oracle : StatCat → Nat → FetchOutcome DF) (bufs : Buffers) (c : StatCat)
    (hdec : ∀ i, i < 10 → oracle c i = FetchOutcome.decodeError)
    (habs : data_exists (existing c) gid = false) :
    fetch_box_score (oracle c) = (Except.ok none, 10, 10) ∧
    (processCat existing gid oracle bufs c).1 c = bufs c ++ [none] ∧
    (processCat existing gid oracle bufs c).2 = none := by
  have hf : fetch_box_score (oracle c) = (Except.ok none, 10, 10) :=
    fetchAttempts_all_decode (oracle c) 0 10 (by omega) hdec
  refine ⟨hf, ?_, ?_⟩ <;> simp [processCat, habs, hf, appendBuf]

/-- Witness for C10 at a concrete input: empty stores, game id 1, an oracle
whose every attempt decode-fails, the advanced category. -/
theorem c10_retry_none_buffered_witness :
    fetch_box_score ((fun _ _ => FetchOutcome.decodeError :
        StatCat → Nat → FetchOutcome DF) StatCat.advanced) =
      (Except.ok none, 10, 10) ∧
    (processCat (fun _ => []) 1 (fun _ _ => FetchOutcome.decodeError)
        (fun _ => []) StatCat.advanced).1 StatCat.advanced =
      (fun _ => ([] : List (Option DF))) StatCat.advanced ++ [none] ∧
    (processCat (fun _ => []) 1 (fun _ _ => FetchOutcome.decodeError)
        (fun _ => []) StatCat.advanced).2 = none :=
  c10_retry_none_buffered (fun _ => []) 1 (fun _ _ => FetchOutcome.decodeError)
    (fun _ => []) StatCat.advanced (by decide) (by decide)

theorem droppedNone_map_some (N : List DF) :
    droppedNone (N.map (fun d => some d)) = N := by
  induction N with
  | nil => rfl
  | cons n ns ih => simpa [droppedNone, List.filterMap_cons] using ih

theorem concatOpt_cons_some (n : DF) (ns : List DF) :
    concatOpt (some n :: ns.map (fun d => some d)) =
      Except.ok (n ++ ns.flatten) := by
  have h := droppedNone_map_some (n :: ns)
  simp only [List.map_cons] at h
  simp [concatOpt, h]

/-- C3: the three cases of the merge contract of `concatenate_and_save`,
with the new data given as a list of actual row-batches (as fetched): with
both existing and new data the result is the existing rows followed by the
new batches concatenated in fetch order; with no new data the existing rows
unchanged; with no existing data the concatenation of the new batches.  The
full result is what gets written over the per-(season, category) file. -/
theorem c3_concatenate_and_save_cases (E : DF) (N : List DF) :
    (E ≠ [] → N ≠ [] →
      concatenate_and_save E (N.map (fun d => some d)) =
        Except.ok (E ++ N.flatten)) ∧
    (N = [] → concatenate_and_save E (N.map (fun d => some d)) =
        Except.ok E) ∧
    (E = [] → concatenate_and_save E (N.map (fun d => some d)) =
        Except.ok N.flatten) := by
  refine ⟨?_, ?_, ?_⟩
  · intro hE hN
    cases E with
    | nil => exact absurd rfl hE
    | cons e es =>
      cases N with
      | nil => exact absurd rfl hN
      | cons n ns =>
        simp [concatenate_and_save, concatOpt_cons_some]
  · intro hN
    subst hN
    simp [concatenate_and_save]
  · intro hE
    subst hE
    cases N with
    | nil => simp [concatenate_and_save]
    | cons n ns =>
      simp [concatenate_and_save, concatOpt_cons_some]

/-- Witness for C3: nonempty existing data and two new batches. -/
theorem c3_concatenate_and_save_witness :
    concatenate_and_save [⟨1, 1⟩]
        ([[⟨2, 1⟩], [⟨2, 2⟩]].map (fun d => some d)) =
      Except.ok (([⟨1, 1⟩] : DF) ++ ([[⟨2, 1⟩], [⟨2, 2⟩]] : List DF).flatten) :=
  (c3_concatenate_and_save_cases [⟨1, 1⟩] [[⟨2, 1⟩], [⟨2, 2⟩]]).1
    (by decide) (by decide)

/-- C5: `data_exists` is false on an empty stored dataset, and is true
exactly when the integer game id occurs in the stored `gameId` column. -/
theorem c5_data_exists_spec (E : DF) (g : Int) :
    (E = [] → data_exists E g = false) ∧
    (data_exists E g = true ↔ g ∈ E.map (fun r => r.gameId)) := by
  constructor
  · intro h
    subst h
    rfl
  · cases E with
    | nil => simp [data_exists]
    | cons e es => simp [data_exists]

/-- Witness for C5: the empty store rejects id 3; a store holding game 5
accepts exactly ids present in its `gameId` column. -/
theorem c5_data_exists_witness :
    data_exists ([] : DF) 3 = false ∧
    (data_exists [⟨5, 1⟩] 5 = true ↔
      (5 : Int) ∈ ([⟨5, 1⟩] : DF).map (fun r => r.gameId)) :=
  ⟨(c5_data_exists_spec [] 3).1 rfl, (c5_data_exists_spec [⟨5, 1⟩] 5).2⟩

theorem concatenate_and_save_map_some (E : DF) (N : List DF) :
    concatenate_and_save E (N.map (fun d => some d)) =
      Except.ok (E ++ N.flatten) := by
  cases N with
  | nil => simp [concatenate_and_save]
  | cons n ns =>
    cases E with
    | nil => simp [concatenate_and_save, concatOpt_cons_some]
    | cons e es => simp [concatenate_and_save, concatOpt_cons_some]

/-- One incremental store-merge run, as the orchestrator performs it for one
category: of the candidate `(game id, fetched batch)` pairs, only those whose
game id is not already present (per `data_exists` against the existing
dataset) get buffered, in order, and the buffer is then merged by
`concatenate_and_save`. -/
def mergeRun (E : DF) (cand : List (Int × DF)) : Except String DF :=
  concatenate_and_save E
    ((cand.filter (fun p => !(data_exists E p.1))).map (fun p => some p.2))

theorem mergeRun_eq (E : DF) (cand : List (Int × DF)) :
    mergeRun E cand =
      Except.ok (E ++ ((cand.filter (fun p => !(data_exists E p.1))).map
        (fun p => p.2)).flatten) := by
  unfold mergeRun
  rw [show (cand.filter (fun p => !(data_exists E p.1))).map (fun p => some p.2)
      = ((cand.filter (fun p => !(data_exists E p.1))).map (fun p => p.2)).map
          (fun d => some d) by simp [List.map_map]]
  exact concatenate_and_save_map_some E _

theorem data_exists_true_iff (E : DF) (g : Int) :
    data_exists E g = true ↔ (E ≠ [] ∧ g ∈ E.map (fun r => r.gameId)) := by
  cases E <;> simp [data_exists]

/-- C4: the incremental merge is idempotent on game ids — provided every
fetched batch contains a row carrying its game id (true of the box-score
tables, whose rows are the two team rows of that game), running the store
merge a second time with the same candidate list against the output of the
first merge filters every candidate out and returns the first output
unchanged, so no duplicate gameId rows appear beyond the first merge. -/
theorem c4_merge_idempotent (E : DF) (cand : List (Int × DF))
    (hc : ∀ p ∈ cand, ∃ r ∈ p.2, r.gameId = p.1) :
    ∃ E', mergeRun E cand = Except.ok E' ∧ mergeRun E' cand = Except.ok E' := by
  refine ⟨E ++ ((cand.filter (fun p => !(data_exists E p.1))).map
    (fun p => p.2)).flatten, mergeRun_eq E cand, ?_⟩
  set J := ((cand.filter (fun p => !(data_exists E p.1))).map
    (fun p => p.2)).flatten with hJ
  have hall : ∀ p ∈ cand, data_exists (E ++ J) p.1 = true := by
    intro p hp
    by_cases hd : data_exists E p.1 = true
    · obtain ⟨hEne, hmemE⟩ := (data_exists_true_iff E p.1).mp hd
      refine (data_exists_true_iff _ _).mpr ⟨?_, ?_⟩
      · cases E with
        | nil => exact absurd rfl hEne
        | cons e es => simp
      · rw [List.map_append]
        exact List.mem_append.mpr (Or.inl hmemE)
    · have hdf : data_exists E p.1 = false := by
        cases h : data_exists E p.1 with
        | false => rfl
        | true => exact absurd h hd
      have hpk : p ∈ cand.filter (fun p => !(data_exists E p.1)) :=
        List.mem_filter.mpr ⟨hp, by simp [hdf]⟩
      obtain ⟨r, hr, hgid⟩ := hc p hp
      have hrJ : r ∈ J := by
        rw [hJ]
        exact List.mem_flatten.mpr ⟨p.2, List.mem_map_of_mem _ hpk, hr⟩
      refine (data_exists_true_iff _ _).mpr ⟨?_, ?_⟩
      · exact List.ne_nil_of_mem (List.mem_append.mpr (Or.inr hrJ))
      · exact List.mem_map.mpr ⟨r, List.mem_append.mpr (Or.inr hrJ), hgid⟩
  have hfilter : cand.filter (fun p => !(data_exists (E ++ J) p.1)) = [] := by
    rw [List.filter_eq_nil_iff]
    intro p hp
    simp [hall p hp]
  rw [mergeRun_eq (E ++ J) cand, hfilter]
  simp

/-- Witness for C4: existing store holding game 1, one candidate batch for
game 2 whose rows carry game id 2. -/
theorem c4_merge_idempotent_witness :
    ∃ E', mergeRun [⟨1, 1⟩] [(2, [⟨2, 1⟩])] = Except.ok E' ∧
      mergeRun E' [(2, [⟨2, 1⟩])] = Except.ok E' :=
  c4_merge_idempotent [⟨1, 1⟩] [(2, [⟨2, 1⟩])] (by decide)

/-- A buffer on which the flush's `pd.concat` raises: nonempty but holding
only `None` entries (every fetch buffered for that category fell off an
exhausted retry loop). -/
def allNoneBuf (l : List (Option DF)) : Prop :=
  l ≠ [] ∧ ∀ x ∈ l, x = none

instance allNoneBufDecidable (l : List (Option DF)) :
    Decidable (allNoneBuf l) :=
  inferInstanceAs (Decidable (l ≠ [] ∧ ∀ x ∈ l, x = none))

theorem concatenate_and_save_ok_of_not_allNone (E : DF) (l : List (Option DF))
    (h : ¬ allNoneBuf l) : ∃ v, concatenate_and_save E l = Except.ok v := by
  cases l with
  | nil => exact ⟨E, by simp [concatenate_and_save]⟩
  | cons x xs =>
    have hex : ∃ x0 ∈ x :: xs, x0 ≠ none := by
      by_contra hno
      push_neg at hno
      exact h ⟨List.cons_ne_nil x xs, hno⟩
    obtain ⟨x0, hx0mem, hx0⟩ := hex
    obtain ⟨d, hd⟩ : ∃ d, x0 = some d := by
      cases x0 with
      | none => exact absurd rfl hx0
      | some d => exact ⟨d, rfl⟩
    have hdmem : d ∈ droppedNone (x :: xs) :=
      List.mem_filterMap.mpr ⟨x0, hx0mem, by rw [hd]⟩
    have hdn : (droppedNone (x :: xs)).isEmpty = false := by
      cases hdd : droppedNone (x :: xs) with
      | nil =>
        rw [hdd] at hdmem
        exact absurd hdmem (List.not_mem_nil d)
      | cons y ys => rfl
    cases E with
    | nil =>
      exact ⟨(droppedNone (x :: xs)).flatten,
        by simp [concatenate_and_save, concatOpt, hdn]⟩
    | cons e es =>
      exact ⟨(e :: es) ++ (droppedNone (x :: xs)).flatten,
        by simp [concatenate_and_save, concatOpt, hdn]⟩

theorem flushCats_spec (existing : StatCat → DF) (bufs : Buffers)
    (cats : List StatCat) (h : ∀ c ∈ cats, ¬ allNoneBuf (bufs c)) :
    (flushCats existing bufs cats).2 = none ∧
    ∀ c ∈ cats, ∃ v,
      concatenate_and_save (existing c) (bufs c) = Except.ok v ∧
      (c, v) ∈ (flushCats existing bufs cats).1 := by
  induction cats with
  | nil => exact ⟨rfl, by simp⟩
  | cons c rest ih =>
    obtain ⟨v, hv⟩ := concatenate_and_save_ok_of_not_allNone (existing c)
      (bufs c) (h c (List.mem_cons_self _ _))
    obtain ⟨ih1, ih2⟩ := ih (fun c' hc' => h c' (List.mem_cons_of_mem _ hc'))
    constructor
    · simp [flushCats, hv, ih1]
    · intro c' hc'
      rcases List.mem_cons.mp hc' with hceq | hmem
      · subst hceq
        exact ⟨v, hv, by simp [flushCats, hv]⟩
      · obtain ⟨v', hv', hmem'⟩ := ih2 c' hmem
        refine ⟨v', hv', ?_⟩
        simp [flushCats, hv, List.mem_cons]
        exact Or.inr hmem'

theorem finishRun_spec (existing : StatCat → DF) (bufs : Buffers)
    (outc : Option ExcKind) (hb : ∀ c ∈ catsOrder, ¬ allNoneBuf (bufs c)) :
    (finishRun existing bufs outc).flushErr = none ∧
    ∀ c : StatCat, ∃ v,
      concatenate_and_save (existing c)
        ((finishRun existing bufs outc).bufs c) = Except.ok v ∧
      (c, v) ∈ (finishRun existing bufs outc).written := by
  have h := flushCats_spec existing bufs catsOrder hb
  refine ⟨?_, ?_⟩
  · simpa [finishRun, flushAll] using h.1
  · intro c
    have hcmem : c ∈ catsOrder := by cases c <;> simp [catsOrder]
    obtain ⟨v, hv, hmem⟩ := h.2 c hcmem
    exact ⟨v, hv, by simpa [finishRun, flushAll] using hmem⟩

theorem runOrch_is_finish (existing : StatCat → DF) :
    ∀ (games : List (Int × (StatCat → Nat → FetchOutcome DF)))
      (bufs : Buffers), ∃ b o,
      runOrch existing games bufs = finishRun existing b o := by
  intro games
  induction games with
  | nil =>
    intro bufs
    exact ⟨bufs, none, rfl⟩
  | cons g rest ih =>
    intro bufs
    cases hpg : processGame existing g.1 g.2 bufs with
    | mk bufs' e =>
      cases e with
      | none =>
        have hstep : runOrch existing (g :: rest) bufs =
            runOrch existing rest bufs' := by
          simp [runOrch, hpg]
        rw [hstep]
        exact ih bufs'
      | some ek =>
        cases ek with
        | decode =>
          have hstep : runOrch existing (g :: rest) bufs =
              runOrch existing rest bufs' := by
            simp [runOrch, hpg]
          rw [hstep]
          exact ih bufs'
        | kb =>
          exact ⟨bufs', some ExcKind.kb, by simp [runOrch, hpg]⟩
        | other =>
          exact ⟨bufs', some ExcKind.other, by simp [runOrch, hpg]⟩

/-- C2 (amended): on every exit path of a season fetch run — normal
completion, user cancellation, or an unexpected non-decode exception — the
orchestrator merges all five in-memory category buffers into their persisted
datasets via `concatenate_and_save` before terminating, provided no category
buffer is nonempty yet made up entirely of the `None` placeholders returned
by fully exhausted retry loops (a `None` buffered alongside at least one
real table is dropped silently by `pd.concat`): then the flush raises
nothing and every category's merge result is among the written artifacts. -/
theorem c2_flush_all_exit_paths (existing : StatCat → DF)
    (games : List (Int × (StatCat → Nat → FetchOutcome DF)))
    (hg : ∀ c ∈ catsOrder,
      ¬ allNoneBuf ((fetch_and_save_all_data existing games).bufs c)) :
    (fetch_and_save_all_data existing games).flushErr = none ∧
    ∀ c : StatCat, ∃ v,
      concatenate_and_save (existing c)
        ((fetch_and_save_all_data existing games).bufs c) = Except.ok v ∧
      (c, v) ∈ (fetch_and_save_all_data existing games).written := by
  obtain ⟨b, o, hb⟩ := runOrch_is_finish existing games (fun _ => [])
  have hrun : fetch_and_save_all_data existing games =
      finishRun existing b o := hb
  rw [hrun] at hg ⊢
  refine finishRun_spec existing b o ?_
  intro c hc
  have hgc := hg c hc
  simpa [finishRun] using hgc

/-- Existing per-category datasets for the C2 witness run: all empty. -/
def c2WExisting : StatCat → DF := fun _ => []

/-- Fetch oracle for the C2 witness run: every category fetch succeeds on
its first attempt. -/
def c2WOracle : StatCat → Nat → FetchOutcome DF :=
  fun _ _ => FetchOutcome.success [⟨1, 1⟩]

/-- Witness for C2 (amended): a one-game run in which every fetch succeeds —
no buffer is nonempty-all-`None`, and the final flush writes all five
categories. -/
theorem c2_flush_all_exit_paths_witness :
    (fetch_and_save_all_data c2WExisting [(1, c2WOracle)]).flushErr = none ∧
    ∀ c : StatCat, ∃ v,
      concatenate_and_save (c2WExisting c)
        ((fetch_and_save_all_data c2WExisting [(1, c2WOracle)]).bufs c) =
          Except.ok v ∧
      (c, v) ∈ (fetch_and_save_all_data c2WExisting [(1, c2WOracle)]).written :=
  c2_flush_all_exit_paths c2WExisting [(1, c2WOracle)] (by decide)

/-- Existing per-category datasets for the C2 counterexample run: misc,
track and traditional already hold game 7; advanced and hustle are empty. -/
def c2CExisting : StatCat → DF := fun c =>
  match c with
  | StatCat.misc => [⟨7, 1⟩]
  | StatCat.track => [⟨7, 1⟩]
  | StatCat.traditional => [⟨7, 1⟩]
  | _ => []

/-- Fetch oracle for the C2 counterexample run: the advanced fetch raises a
decode error on every attempt; the hustle fetch succeeds immediately. -/
def c2COracle : StatCat → Nat → FetchOutcome DF := fun c _ =>
  match c with
  | StatCat.advanced => FetchOutcome.decodeError
  | StatCat.hustle => FetchOutcome.success [⟨7, 2⟩]
  | _ => FetchOutcome.otherError

/-- The C2 counterexample run: one game (id 7) with the above stores and
oracle. -/
def c2CRun : OrchOut := fetch_and_save_all_data c2CExisting [(7, c2COracle)]

/-- Counterexample to C2 as stated: this run completes normally (no
exception), the hustle buffer holds a fetched table, yet nothing at all is
persisted — the advanced category's buffer consists entirely of the `None`
returned by its exhausted retry loop, so the very first
`concatenate_and_save` of the final flush raises
`ValueError: All objects passed were None` inside `pd.concat`, aborting the
flush before any category (including the buffered hustle rows) is written.
Buffered rows are therefore lost on a run exit, contradicting the claim. -/
theorem c2_flush_loss_counterexample :
    c2CRun.outcome = none ∧
    c2CRun.bufs StatCat.hustle = [some [⟨7, 2⟩]] ∧
    c2CRun.written = [] ∧
    c2CRun.flushErr = some "ValueError: All objects passed were None" :=
  ⟨rfl, rfl, rfl, rfl⟩

/-- Home-perspective table for the C7 evaluation: game 1 has stat X = 10,
game 2 has stat X = 5. -/
def c7Home : SFrame := ⟨["X"], [(1, [some 10]), (2, [some 5])]⟩

/-- Away-perspective table for the C7 evaluation: game 1 has stat X = 7;
game 2 is absent (value missing on the away side). -/
def c7Away : SFrame := ⟨["X"], [(1, [some 7])]⟩

/-- C7: the aligned subtraction itself matches the claim — home X=10 minus
away X=7 gives 3, and a value missing on one side is treated as 0 (home X=5,
away missing, diff 5).  But the difference columns are not prefixed to
disambiguate them: line 57 builds `["gameId"]` plus one copy of the literal
string `"diff_"` (the f-string never interpolates the column name) for every
column of the reset frame — the filter compares against the misspelled
`"gamId"`, so the `gameId` column passes it too — which yields one name too
many, and assigning the list raises `ValueError: Length mismatch`, so the
function never returns a table. -/
theorem c7_diff_features_rename_crash :
    diffValue c7Home c7Away "X" 1 = some 3 ∧
    diffValue c7Home c7Away "X" 2 = some 5 ∧
    diffFeatureNames c7Home = ["gameId", "diff_", "diff_"] ∧
    generate_diff_features c7Home c7Away =
      Except.error "ValueError: Length mismatch" :=
  ⟨rfl, rfl, rfl, rfl⟩

/-- C8: evaluated at a one-game frame and cutoff 150, `split_scale_data`
raises the `TypeError` from line 72 — the misplaced bracket makes the code
compare the Python list `["GAME_DATE"]` against the cutoff timestamp — so no
train/test partition by game date is ever produced. -/
theorem c8_split_scale_data_raises :
    split_scale_data [⟨1, 100⟩] 150 =
      Except.error "TypeError: < not supported between list and Timestamp" :=
  rfl

/-- C9: evaluated at n = 5 (the call the module makes), the training loop
raises `AttributeError` at the persistence statement of its first iteration —
`pickle.diump` does not exist — so the artifact list is empty: no model
numbered 1..N is persisted, let alone all of them. -/
theorem c9_train_models_persists_nothing :
    train_models 5 =
      (Except.error "AttributeError: module pickle has no attribute diump",
        []) :=
  rfl

theorem filter_and_length_le {α : Type} (l : List α) (p q : α → Bool) :
    (l.filter (fun a => p a && q a)).length ≤ (l.filter p).length := by
  induction l with
  | nil => simp
  | cons x xs ih =>
    simp only [List.filter_cons]
    by_cases hp : p x = true
    · by_cases hq : q x = true
      · simp [hp, hq]
        omega
      · have hq' : q x = false := by
          cases h : q x
          · rfl
          · exact absurd h hq
        simp [hp, hq']
        omega
    · have hp' : p x = false := by
        cases h : p x
        · rfl
        · exact absurd h hp
      simp [hp']
      exact ih

theorem matchesOf_singleton (A : List GameLogRow) (h : GameLogRow)
    (hle1 : (A.filter (fun a => a.gameId == h.gameId)).length ≤ 1)
    (hex : ∃ a ∈ A, a.gameId = h.gameId ∧ a.gameDate = h.gameDate) :
    ∃ a, matchesOf A h = [a] := by
  obtain ⟨a0, ha0, hgid, hdate⟩ := hex
  have hmem : a0 ∈ matchesOf A h :=
    List.mem_filter.mpr ⟨ha0, by simp [hgid, hdate]⟩
  have hge : 1 ≤ (matchesOf A h).length :=
    List.length_pos.mpr (List.ne_nil_of_mem hmem)
  have hle : (matchesOf A h).length ≤
      (A.filter (fun a => a.gameId == h.gameId)).length :=
    filter_and_length_le A (fun a => a.gameId == h.gameId)
      (fun a => a.gameDate == h.gameDate)
  exact List.length_eq_one.mp (le_antisymm (hle.trans hle1) hge)

theorem flatMap_singleton_map_gameId (A : List GameLogRow) :
    ∀ Hs : List GameLogRow, (∀ h ∈ Hs, ∃ a, matchesOf A h = [a]) →
    ((Hs.flatMap (fun h => (matchesOf A h).map (mergeRow h))).map
      (fun m => m.gameId)) = Hs.map (fun h => h.gameId) := by
  intro Hs
  induction Hs with
  | nil => intro _; rfl
  | cons h hs ih =>
    intro hone
    obtain ⟨a, ha⟩ := hone h (List.mem_cons_self _ _)
    simp only [List.flatMap_cons, List.map_append, List.map_cons, List.map_nil,
      ha, mergeRow]
    rw [ih (fun h' hh' => hone h' (List.mem_cons_of_mem _ hh'))]
    rfl

theorem nodup_map_gameId :
    ∀ Hs : List GameLogRow,
    (∀ h ∈ Hs, (Hs.filter (fun h' => h'.gameId == h.gameId)).length ≤ 1) →
    (Hs.map (fun h => h.gameId)).Nodup := by
  intro Hs
  induction Hs with
  | nil => intro _; simp
  | cons h hs ih =>
    intro h1
    simp only [List.map_cons, List.nodup_cons]
    constructor
    · intro hmem
      obtain ⟨h', hh', heq⟩ := List.mem_map.mp hmem
      have hcount := h1 h (List.mem_cons_self _ _)
      have hhead : (h :: hs).filter (fun h' => h'.gameId == h.gameId)
          = h :: hs.filter (fun h' => h'.gameId == h.gameId) := by
        simp [List.filter_cons]
      rw [hhead, List.length_cons] at hcount
      have hnil : hs.filter (fun h' => h'.gameId == h.gameId) = [] :=
        List.eq_nil_of_length_eq_zero (by omega)
      have hmem' : h' ∈ hs.filter (fun h' => h'.gameId == h.gameId) :=
        List.mem_filter.mpr ⟨hh', by simp [heq]⟩
      rw [hnil] at hmem'
      exact absurd hmem' (List.not_mem_nil _)
    · apply ih
      intro h' hh'
      have hsub : (hs.filter (fun x => x.gameId == h'.gameId)).length ≤
          ((h :: hs).filter (fun x => x.gameId == h'.gameId)).length :=
        ((List.sublist_cons_self h hs).filter _).length_le
      exact hsub.trans (h1 h' (List.mem_cons_of_mem _ hh'))

theorem flatMap_singleton_filter_length (A : List GameLogRow) (g d : Nat) :
    ∀ Hs : List GameLogRow, (∀ h ∈ Hs, ∃ a, matchesOf A h = [a]) →
    ((Hs.flatMap (fun h => (matchesOf A h).map (mergeRow h))).filter
      (fun m => m.gameId == g && m.gameDate == d)).length
      = (Hs.filter (fun h => h.gameId == g && h.gameDate == d)).length := by
  intro Hs
  induction Hs with
  | nil => intro _; rfl
  | cons h hs ih =>
    intro hone
    obtain ⟨a, ha⟩ := hone h (List.mem_cons_self _ _)
    have ih' := ih (fun h' hh' => hone h' (List.mem_cons_of_mem _ hh'))
    simp only [List.flatMap_cons, ha, List.map_cons, List.map_nil,
      List.filter_append, List.length_append, List.filter_cons]
    by_cases hp : (h.gameId == g && h.gameDate == d) = true
    · simp [mergeRow, hp, ih']
      omega
    · have hp' : (h.gameId == g && h.gameDate == d) = false := by
        cases hc : (h.gameId == g && h.gameDate == d)
        · rfl
        · exact absurd hc hp
      simp only [mergeRow] at hp' ⊢
      simp [hp', ih']

/-- C6: provided the (filtered, deduplicated) game log is well formed — each
home row's game id occurs in at most one home row, is matched by at most one
away row, and has an away row sharing its game id and date (each game
appears as one home-matchup row and one away-matchup row, as the league log
delivers it) — the processed output has exactly one merged record per
(game id, date) pair, each pairing that home row with its matching away
row, and no game id occurs twice in the output. -/
theorem c6_process_game_logs_unique (today : Nat) (logs : List GameLogRow)
    (h1 : ∀ h ∈ homeLogs today logs,
      ((homeLogs today logs).filter
        (fun h' => h'.gameId == h.gameId)).length ≤ 1)
    (h2 : ∀ h ∈ homeLogs today logs,
      ((awayLogs today logs).filter
        (fun a => a.gameId == h.gameId)).length ≤ 1)
    (h3 : ∀ h ∈ homeLogs today logs, ∃ a ∈ awayLogs today logs,
      a.gameId = h.gameId ∧ a.gameDate = h.gameDate) :
    ((process_game_logs today logs).map (fun m => m.gameId)).Nodup ∧
    ∀ h ∈ homeLogs today logs,
      ((process_game_logs today logs).filter
        (fun m => m.gameId == h.gameId && m.gameDate == h.gameDate)).length
        = 1 := by
  have hone : ∀ h ∈ homeLogs today logs,
      ∃ a, matchesOf (awayLogs today logs) h = [a] :=
    fun h hh => matchesOf_singleton _ h (h2 h hh) (h3 h hh)
  constructor
  · have heq := flatMap_singleton_map_gameId (awayLogs today logs)
      (homeLogs today logs) hone
    rw [process_game_logs, heq]
    exact nodup_map_gameId (homeLogs today logs) h1
  · intro h hh
    have heq := flatMap_singleton_filter_length (awayLogs today logs)
      h.gameId h.gameDate (homeLogs today logs) hone
    rw [process_game_logs, heq]
    have hge : 1 ≤ ((homeLogs today logs).filter
        (fun h' => h'.gameId == h.gameId && h'.gameDate == h.gameDate)).length :=
      List.length_pos.mpr (List.ne_nil_of_mem
        (List.mem_filter.mpr ⟨hh, by simp⟩))
    have hle : ((homeLogs today logs).filter
        (fun h' => h'.gameId == h.gameId && h'.gameDate == h.gameDate)).length ≤
        ((homeLogs today logs).filter
          (fun h' => h'.gameId == h.gameId)).length :=
      filter_and_length_le (homeLogs today logs)
        (fun h' => h'.gameId == h.gameId) (fun h' => h'.gameDate == h.gameDate)
    exact le_antisymm (hle.trans (h1 h hh)) hge

/-- A four-row league game log for the C6 witness: games 1 and 2, each with
one home row (matchup containing " vs. ") and one away row (matchup
containing " @ "). -/
def c6Logs : List GameLogRow :=
  [⟨1, 10, "NYK", 5, "NYK vs. BOS", 100⟩,
   ⟨1, 20, "BOS", 5, "BOS @ NYK", 90⟩,
   ⟨2, 20, "BOS", 6, "BOS vs. NYK", 95⟩,
   ⟨2, 10, "NYK", 6, "NYK @ BOS", 101⟩]

/-- Witness for C6 on the concrete log above, with "today" = day 9. -/
theorem c6_process_game_logs_witness :
    ((process_game_logs 9 c6Logs).map (fun m => m.gameId)).Nodup ∧
    ∀ h ∈ homeLogs 9 c6Logs,
      ((process_game_logs 9 c6Logs).filter
        (fun m => m.gameId == h.gameId && m.gameDate == h.gameDate)).length
        = 1 :=
  c6_process_game_logs_unique 9 c6Logs (by decide) (by decide) (by decide)
